import Mathlib

/-!
# Verification of the myOS font glyph exporter

Shallow embedding of `scripts/export_glyphs.py`: the range-spec parser in
`main`, the rasterization geometry of `baseline_aligned_cell`, the column
packer `col_to_hex`, and the record emitter `emit_setglyph_line`.

Python machine-level details are modelled as follows: Python strings are
`List Char`; Python `int` is `ℤ` (unbounded, as in Python); the float
returned by `font.getlength` is modelled as `ℚ` (the claims only use its
ceiling); `None`-less fallible operations that raise (`int(tok, 0)`,
`chr(u)`) return `Option`.
-/

namespace GlyphExport

/-! ## Python string primitives used by the script -/

/-- Characters stripped by Python's `str.strip()` (the ASCII whitespace
set, which is all that can occur in a CLI `--range` argument). -/
def pyIsSpace (c : Char) : Bool :=
  c = ' ' || c = '\t' || c = '\n' || c = '\r' || c = '\x0b' || c = '\x0c'

/-- Python `tok.strip()` being falsy: the token is empty or whitespace-only. -/
def pyIsBlank (t : List Char) : Bool :=
  t.all pyIsSpace

/-- Python `s.strip()`. -/
def pyStrip (s : List Char) : List Char :=
  ((s.dropWhile pyIsSpace).reverse.dropWhile pyIsSpace).reverse

/-- Python `s.split(sep)` for a one-character separator: `"".split(",") = [""]`,
`"a,".split(",") = ["a", ""]`. -/
def splitOnChar (sep : Char) : List Char → List (List Char)
  | [] => [[]]
  | c :: rest =>
    let r := splitOnChar sep rest
    if c = sep then [] :: r
    else
      match r with
      | [] => [[c]]
      | h :: t => (c :: h) :: t

/-- Python `s.count(sep)` for a one-character pattern. -/
def countChar (sep : Char) (s : List Char) : ℕ :=
  (s.filter (fun c => c = sep)).length

/-- Value of a single digit character (as accepted by Python `int`). -/
def charVal (c : Char) : Option ℕ :=
  if '0' ≤ c ∧ c ≤ '9' then some (c.toNat - 48)
  else if 'a' ≤ c ∧ c ≤ 'z' then some (c.toNat - 97 + 10)
  else if 'A' ≤ c ∧ c ≤ 'Z' then some (c.toNat - 65 + 10)
  else none

/-- Parse a non-empty run of digits in the given base. -/
def parseDigits (base : ℕ) (cs : List Char) : Option ℕ :=
  match cs with
  | [] => none
  | _ =>
    cs.foldlM
      (fun acc c =>
        (charVal c).bind (fun d => if d < base then some (acc * base + d) else none))
      0

/-- Unsigned part of Python `int(s, 0)`: a `0x`/`0o`/`0b` prefixed literal,
a plain decimal with no leading zero, or a run of zeros. -/
def parseUnsigned0 : List Char → Option ℕ
  | [] => none
  | ['0'] => some 0
  | '0' :: c :: rest =>
    if c = 'x' ∨ c = 'X' then parseDigits 16 rest
    else if c = 'o' ∨ c = 'O' then parseDigits 8 rest
    else if c = 'b' ∨ c = 'B' then parseDigits 2 rest
    else if (c :: rest).all (fun d => d = '0') then some 0
    else none
  | cs => parseDigits 10 cs

/-- Python `int(tok, 0)`: strip surrounding whitespace, optional sign,
then a base-prefixed or decimal literal.  `none` models `ValueError`. -/
def pyInt0 (s : List Char) : Option ℤ :=
  match pyStrip s with
  | '+' :: rest => (parseUnsigned0 rest).map Int.ofNat
  | '-' :: rest => (parseUnsigned0 rest).map (fun n => -(n : ℤ))
  | t => (parseUnsigned0 t).map Int.ofNat

/-- Python `range(a, b)` as a list: `[a, a+1, ..., b-1]`, empty when `b ≤ a`. -/
def pyRange (a b : ℤ) : List ℤ :=
  (List.range (b - a).toNat).map (fun i => a + Int.ofNat i)

/-! ## CodepointSelector: the `--range` parsing in `main`

```python
if "-" in args.range and args.range.count("-") == 1 and "," not in args.range:
    lo_str, hi_str = args.range.split("-")
    cps = range(int(lo_str, 0), int(hi_str, 0) + 1)
else:
    cps = [int(tok, 0) for tok in args.range.split(",") if tok.strip()]
```
`none` models the fatal `ValueError` (the spec's `MalformedRangeError`). -/

/-- The list-grammar branch applied to already-split tokens. -/
def parseTokens (toks : List (List Char)) : Option (List ℤ) :=
  (toks.filter (fun t => !pyIsBlank t)).mapM pyInt0

/-- The list-grammar branch of the `--range` parser. -/
def parseList (s : List Char) : Option (List ℤ) :=
  parseTokens (splitOnChar ',' s)

/-- The `--range` parser of `main`. -/
def parseRange (s : List Char) : Option (List ℤ) :=
  if '-' ∈ s ∧ countChar '-' s = 1 ∧ ',' ∉ s then
    match splitOnChar '-' s with
    | [lo_str, hi_str] =>
      match pyInt0 lo_str, pyInt0 hi_str with
      | some lo, some hi => some (pyRange lo (hi + 1))
      | _, _ => none
    | _ => none
  else
    parseList s

/-! ## ColumnPacker: `col_to_hex`

```python
s = ''.join('1' if int(b) else '0' for b in col_bits.tolist())
return hex(int(s or '0', 2))
```
The packed integer is the value of the column read top-to-bottom as a
binary numeral (top row = most significant bit). -/

/-- The integer packed by `col_to_hex`: `int(''.join(...), 2)`. -/
def packColNat (l : List Bool) : ℕ :=
  l.foldl (fun acc b => 2 * acc + (if b then 1 else 0)) 0

/-- Column `x` of the ink matrix, top-to-bottom: `bits[:, x]`. -/
def colBits (bits : List (List Bool)) (x : ℕ) : List Bool :=
  bits.map (fun r => r.getD x false)

/-! ## FontMetricsSource and GlyphRasterizer: `baseline_aligned_cell`

```python
ascent, descent = font.getmetrics()
line_height = ascent + descent
advance = int(ceil(font.getlength(ch)))
W = max(1, advance)
H = max(1, line_height)
img = Image.new('1', (W, H), 1); draw.text((0, ascent), ch, ...)
bits = (np.array(img) == 0)
```
The font library is the external collaborator: `getmetrics` yields the
nonnegative pixel counts `ascent`/`descent`, `getlength` the float advance
(modelled as `ℚ`), and the renderer's ink decision at row `y`, column `x`
is abstracted as `inkAt`. -/

/-- The capability surface of the loaded font (`ImageFont.FreeTypeFont`)
together with the renderer behind `draw.text`. -/
structure FontContext where
  ascent : ℕ
  descent : ℕ
  getlength : Char → ℚ
  inkAt : Char → ℕ → ℕ → Bool

/-- The `(bits, W, H)` triple returned by `baseline_aligned_cell`. -/
structure RasterCell where
  bits : List (List Bool)
  W : ℕ
  H : ℕ

/-- `baseline_aligned_cell(font, ch)`: geometry from the font metrics, ink
matrix from the renderer, row 0 = topmost scanline. -/
def baseline_aligned_cell (ctx : FontContext) (c : Char) : RasterCell :=
  let line_height : ℕ := ctx.ascent + ctx.descent
  let advance : ℤ := ⌈ctx.getlength c⌉
  let W : ℕ := (max 1 advance).toNat
  let H : ℕ := max 1 line_height
  { bits := (List.range H).map (fun y => (List.range W).map (fun x => ctx.inkAt c y x))
    W := W
    H := H }

/-- Python `chr(u)`: defined exactly for `0 ≤ u < 0x110000`, `ValueError`
(modelled as `none`) outside.  (Lean `Char` has no surrogate values, so
surrogates are carried as the default character; no claim inspects them.) -/
def pyChr (u : ℤ) : Option Char :=
  if 0 ≤ u ∧ u < 1114112 then some (Char.ofNat u.toNat) else none

/-- Python `hex(n)` for a natural number: `0x`-prefixed lowercase. -/
def pyHexNat (n : ℕ) : String :=
  "0x" ++ String.mk (Nat.toDigits 16 n)

/-- Python `hex(u)` on an arbitrary integer. -/
def pyHex (u : ℤ) : String :=
  if u < 0 then "-" ++ pyHexNat (-u).toNat else pyHexNat u.toNat

/-- `col_to_hex(col_bits)`: the packed column rendered as a Python hex
literal (`int('' or '0', 2)` makes the empty column `0`, as does `foldl`). -/
def col_to_hex (l : List Bool) : String :=
  pyHexNat (packColNat l)

/-- Python `", ".join(xs)`. -/
def strJoin (sep : String) : List String → String
  | [] => ""
  | [x] => x
  | x :: y :: rest => x ++ sep ++ strJoin sep (y :: rest)

/-- `emit_setglyph_line(family_name, u, bits, width, height)`:

```python
hex_cols = [col_to_hex(bits[:, x]) for x in range(bits.shape[1])]
hexs_str = ", ".join(hex_cols)
return (f"\t{family_name}.setGlyph({hex(u)}, "
        f"{{{{{hexs_str}}}, {width}, {height}, 0, 0}}); "
        f"// Glyph {hex(u)} - '{chr(u)}'")
```
`bits.shape[1]` is the length of the first row; `chr(u)` may raise, which
the `Option` models. -/
def emit_setglyph_line (family_name : String) (u : ℤ) (bits : List (List Bool))
    (width height : ℕ) : Option String :=
  (pyChr u).map (fun c =>
    let hex_cols := (List.range (bits.headD []).length).map
      (fun x => col_to_hex (colBits bits x))
    let hexs_str := strJoin ", " hex_cols
    "\t" ++ family_name ++ ".setGlyph(" ++ pyHex u ++ ", \x7b\x7b" ++ hexs_str
      ++ "\x7d, " ++ toString width ++ ", " ++ toString height
      ++ ", 0, 0\x7d); // Glyph " ++ pyHex u ++ " - '" ++ String.singleton c ++ "'")

/-! ## Pipeline: the per-codepoint loop of `main`

```python
for u in cps:
    bits, w, h = baseline_aligned_cell(font, chr(u))
    lines.append(emit_setglyph_line(family, u, bits, w, h))
```
-/

/-- The data of one emitted glyph record (spec's PackedGlyph). -/
structure PackedGlyph where
  codepoint : ℤ
  columns : List ℕ
  width : ℕ
  height : ℕ

/-- The column integers extracted by `emit_setglyph_line`
(`bits[:, x] for x in range(bits.shape[1])`), as integers. -/
def columnsOf (bits : List (List Bool)) : List ℕ :=
  (List.range (bits.headD []).length).map (fun x => packColNat (colBits bits x))

/-- The PackedGlyph produced for one code point `u` (after `chr(u)` gave `c`). -/
def packedGlyph (ctx : FontContext) (u : ℤ) (c : Char) : PackedGlyph :=
  let cell := baseline_aligned_cell ctx c
  { codepoint := u, columns := columnsOf cell.bits, width := cell.W, height := cell.H }

/-- The glyph table of one run: the loop over requested code points; `none`
models the run aborting on a `chr` failure. -/
def glyphTable (ctx : FontContext) : List ℤ → Option (List PackedGlyph)
  | [] => some []
  | u :: rest =>
    match pyChr u with
    | none => none
    | some c =>
      match glyphTable ctx rest with
      | none => none
      | some t => some (packedGlyph ctx u c :: t)

/-- One iteration of the loop in `main`, producing the emitted line for
code point `u`; `none` models the run failing on this code point. -/
def glyphLine (ctx : FontContext) (family : String) (u : ℤ) : Option String :=
  (pyChr u).bind (fun c =>
    let cell := baseline_aligned_cell ctx c
    emit_setglyph_line family u cell.bits cell.W cell.H)

/-- The record template exactly as the spec's output-format section writes
it, with no leading whitespace:
`<family>.setGlyph(<cp>, \x7b\x7b<cols>\x7d, <w>, <h>, 0, 0\x7d); // Glyph <cp> - '<char>'`. -/
def specRecordShape (family : String) (u : ℤ) (cols : List String)
    (width height : ℕ) (c : Char) : String :=
  family ++ ".setGlyph(" ++ pyHex u ++ ", \x7b\x7b" ++ strJoin ", " cols
    ++ "\x7d, " ++ toString width ++ ", " ++ toString height
    ++ ", 0, 0\x7d); // Glyph " ++ pyHex u ++ " - '" ++ String.singleton c ++ "'"

/-- A concrete font context for witnesses: 10+2 line metrics, constant
advance 6, all-background renderer. -/
def testCtx : FontContext :=
  { ascent := 10, descent := 2, getlength := fun _ => 6, inkAt := fun _ _ _ => false }

/-! ## Lemmas about the column packer -/

lemma packColNat_nil : packColNat [] = 0 := rfl

lemma packColNat_foldl_acc (l : List Bool) (acc : ℕ) :
    l.foldl (fun a b => 2 * a + (if b then 1 else 0)) acc =
      acc * 2 ^ l.length + packColNat l := by
  induction l generalizing acc with
  | nil => simp [packColNat]
  | cons b t ih =>
    simp only [List.foldl_cons, packColNat, List.length_cons]
    rw [ih (2 * acc + (if b then 1 else 0)), ih (2 * 0 + (if b then 1 else 0))]
    ring

lemma packColNat_cons (b : Bool) (t : List Bool) :
    packColNat (b :: t) = 2 ^ t.length * (if b then 1 else 0) + packColNat t := by
  simp only [packColNat, List.foldl_cons]
  rw [packColNat_foldl_acc]
  unfold packColNat
  ring

lemma packColNat_lt (l : List Bool) : packColNat l < 2 ^ l.length := by
  induction l with
  | nil => simp [packColNat]
  | cons b t ih =>
    rw [packColNat_cons, List.length_cons, pow_succ]
    have hb : (if b then 1 else 0) ≤ 1 := by cases b <;> simp
    calc 2 ^ t.length * (if b then 1 else 0) + packColNat t
        ≤ 2 ^ t.length * 1 + packColNat t := by
          exact Nat.add_le_add_right (Nat.mul_le_mul_left _ hb) _
      _ < 2 ^ t.length + 2 ^ t.length := by
          rw [Nat.mul_one]; exact Nat.add_lt_add_left ih _
      _ = 2 ^ t.length * 2 := by ring

/-- Decoding lemma: bit `(length - 1 - y)` of the packed column is row `y`
of the original column (row 0 = topmost = most significant bit). -/
lemma packColNat_testBit (l : List Bool) (y : ℕ) (hy : y < l.length) :
    Nat.testBit (packColNat l) (l.length - 1 - y) = l.getD y false := by
  induction l generalizing y with
  | nil => simp at hy
  | cons b t ih =>
    rw [packColNat_cons]
    have hm := packColNat_lt t
    cases y with
    | zero =>
      have : t.length + 1 - 1 - 0 = t.length := by omega
      rw [List.length_cons, this,
        Nat.testBit_mul_pow_two_add (if b then 1 else 0) hm t.length]
      simp only [Nat.lt_irrefl, if_false, Nat.sub_self]
      cases b <;> simp
    | succ y' =>
      have hy' : y' < t.length := by
        simp only [List.length_cons] at hy; omega
      have hidx : (b :: t).length - 1 - (y' + 1) = t.length - 1 - y' := by
        simp only [List.length_cons]; omega
      have hlt : t.length - 1 - y' < t.length := by omega
      rw [hidx, Nat.testBit_mul_pow_two_add (if b then 1 else 0) hm _,
        if_pos hlt]
      simpa using ih y' hy'

/-- An all-background column packs to `0`. -/
lemma packColNat_replicate_false (n : ℕ) :
    packColNat (List.replicate n false) = 0 := by
  induction n with
  | zero => rfl
  | succ k ih =>
    rw [List.replicate_succ, packColNat_cons, ih]
    simp

/-! ## Helper lemmas about the rasterizer and the pipeline -/

lemma colBits_length (bits : List (List Bool)) (x : ℕ) :
    (colBits bits x).length = bits.length := by
  simp [colBits]

lemma colBits_getD (bits : List (List Bool)) (x y : ℕ) (hy : y < bits.length) :
    (colBits bits x).getD y false = (bits.getD y []).getD x false := by
  simp only [colBits, List.getD_eq_getElem?_getD, List.getElem?_map]
  rw [List.getElem?_eq_getElem hy]
  simp

lemma baseline_H_pos (ctx : FontContext) (c : Char) :
    0 < (baseline_aligned_cell ctx c).H :=
  Nat.lt_of_lt_of_le Nat.zero_lt_one (Nat.le_max_left 1 _)

lemma baseline_bits_length (ctx : FontContext) (c : Char) :
    (baseline_aligned_cell ctx c).bits.length = (baseline_aligned_cell ctx c).H := by
  simp [baseline_aligned_cell]

lemma headD_map_range_length (H W : ℕ) (f : ℕ → ℕ → Bool) (hH : 0 < H) :
    (((List.range H).map (fun y => (List.range W).map (fun x => f y x))).headD []).length
      = W := by
  cases H with
  | zero => exact absurd hH (lt_irrefl 0)
  | succ k => simp [List.range_succ_eq_map]

lemma baseline_headD_length (ctx : FontContext) (c : Char) :
    ((baseline_aligned_cell ctx c).bits.headD []).length = (baseline_aligned_cell ctx c).W :=
  headD_map_range_length _ _ _ (baseline_H_pos ctx c)

lemma mem_glyphTable (ctx : FontContext) :
    ∀ (cps : List ℤ) (table : List PackedGlyph),
      glyphTable ctx cps = some table → ∀ g ∈ table,
        ∃ u c, pyChr u = some c ∧ g = packedGlyph ctx u c := by
  intro cps
  induction cps with
  | nil =>
    intro table h g hg
    simp only [glyphTable] at h
    injection h with h
    subst h
    simp at hg
  | cons u rest ih =>
    intro table h g hg
    simp only [glyphTable] at h
    cases hc : pyChr u with
    | none => rw [hc] at h; cases h
    | some c =>
      rw [hc] at h
      cases ht : glyphTable ctx rest with
      | none => rw [ht] at h; cases h
      | some t =>
        rw [ht] at h
        injection h with h
        subst h
        rcases List.mem_cons.mp hg with hg1 | hg2
        · exact ⟨u, c, hc, hg1⟩
        · exact ih t ht g hg2

lemma packedGlyph_height (ctx : FontContext) (u : ℤ) (c : Char) :
    (packedGlyph ctx u c).height = max 1 (ctx.ascent + ctx.descent) := rfl

lemma packedGlyph_width (ctx : FontContext) (u : ℤ) (c : Char) :
    (packedGlyph ctx u c).width = (baseline_aligned_cell ctx c).W := rfl

lemma packedGlyph_columns (ctx : FontContext) (u : ℤ) (c : Char) :
    (packedGlyph ctx u c).columns = columnsOf (baseline_aligned_cell ctx c).bits := rfl

/-! ## The claims -/

/-- C1: packing a column of a RasterCell sets bit `(height - 1 - y)` of the
column integer to 1 iff `cell[y][x]` is ink (top row = most significant
bit), so decoding by testing bit `(height - 1 - y)` reproduces the column's
ink pattern exactly, and an all-background column packs to `0`. -/
theorem C1_column_pack_roundtrip (bits : List (List Bool)) (H W : ℕ)
    (hlen : bits.length = H) (hrow : ∀ r ∈ bits, r.length = W) :
    (∀ x, x < W → ∀ y, y < H →
      Nat.testBit (packColNat (colBits bits x)) (H - 1 - y) =
        (bits.getD y []).getD x false) ∧
    (∀ x, x < W →
      (∀ y, y < H → (bits.getD y []).getD x false = false) →
      packColNat (colBits bits x) = 0) := by
  have hcl : ∀ x, (colBits bits x).length = H := fun x => by
    rw [colBits_length, hlen]
  constructor
  · intro x hx y hy
    have hb := packColNat_testBit (colBits bits x) y (by rw [hcl]; exact hy)
    rw [hcl] at hb
    rw [hb]
    exact colBits_getD bits x y (by rw [hlen]; exact hy)
  · intro x hx hall
    have hrepl : colBits bits x = List.replicate H false := by
      rw [List.eq_replicate_iff]
      refine ⟨hcl x, ?_⟩
      intro b hbmem
      simp only [colBits, List.mem_map] at hbmem
      obtain ⟨r, hr, rfl⟩ := hbmem
      obtain ⟨y, hy, hry⟩ := List.mem_iff_getElem.mp hr
      have hgetD : bits.getD y [] = r := by
        rw [List.getD_eq_getElem?_getD, List.getElem?_eq_getElem hy, hry]
        rfl
      rw [← hgetD]
      exact hall y (by rw [← hlen]; exact hy)
    rw [hrepl]
    exact packColNat_replicate_false H

/-- Witness for C1 at a concrete 2×2 ink matrix. -/
theorem C1_column_pack_roundtrip_witness :
    (∀ x, x < 2 → ∀ y, y < 2 →
      Nat.testBit (packColNat (colBits [[true, false], [false, false]] x)) (2 - 1 - y) =
        (([[true, false], [false, false]] : List (List Bool)).getD y []).getD x false) ∧
    (∀ x, x < 2 →
      (∀ y, y < 2 →
        (([[true, false], [false, false]] : List (List Bool)).getD y []).getD x false = false) →
      packColNat (colBits [[true, false], [false, false]] x) = 0) :=
  C1_column_pack_roundtrip [[true, false], [false, false]] 2 2 (by decide)
    (by decide)

/-- C2 counterexample: `-5,6` contains both a hyphen and a comma, yet its
hyphen-containing token `-5` is a parseable (signed) list element, so the
parse succeeds instead of raising `MalformedRangeError`. -/
theorem C2_counterexample :
    ('-' ∈ "-5,6".toList) ∧ (',' ∈ "-5,6".toList) ∧
      parseRange "-5,6".toList = some [-5, 6] := by decide

/-- C2 (amended): a spec containing a comma is always parsed under the list
grammar (never as an interval), and the interval-looking token of
`0x21-0x7E,0x80` is non-parseable, so that spec raises
`MalformedRangeError`. -/
theorem C2_mixed_spec_uses_list_grammar :
    (∀ s : List Char, ',' ∈ s → parseRange s = parseList s) ∧
      parseRange "0x21-0x7E,0x80".toList = none := by
  constructor
  · intro s hs
    have hneg : ¬('-' ∈ s ∧ countChar '-' s = 1 ∧ ',' ∉ s) := fun h => h.2.2 hs
    simp only [parseRange, if_neg hneg]
  · decide

/-- Witness for C2 at the spec's own scenario input. -/
theorem C2_mixed_spec_uses_list_grammar_witness :
    parseRange "0x21-0x7E,0x80".toList = parseList "0x21-0x7E,0x80".toList ∧
      parseRange "0x21-0x7E,0x80".toList = none :=
  ⟨C2_mixed_spec_uses_list_grammar.1 "0x21-0x7E,0x80".toList (by decide),
    C2_mixed_spec_uses_list_grammar.2⟩

/-- C3 counterexample: the reversed interval `0x7E-0x21` (hi < lo) parses
successfully to the empty CodepointRange instead of raising
`MalformedRangeError`. -/
theorem C3_counterexample : parseRange "0x7E-0x21".toList = some [] := by decide

/-- C3 (amended): an interval spec `lo-hi` with both bounds parseable and
`hi < lo` parses successfully to an empty CodepointRange (Python
`range(lo, hi+1)` is empty); no bound-order check exists, so
`MalformedRangeError` arises only from non-parseable bounds or tokens. -/
theorem C3_reversed_interval_empty (s a b : List Char) (lo hi : ℤ)
    (h1 : '-' ∈ s) (h2 : countChar '-' s = 1) (h3 : ',' ∉ s)
    (hsplit : splitOnChar '-' s = [a, b])
    (hlo : pyInt0 a = some lo) (hhi : pyInt0 b = some hi) (hrev : hi < lo) :
    parseRange s = some [] := by
  have hcond : '-' ∈ s ∧ countChar '-' s = 1 ∧ ',' ∉ s := ⟨h1, h2, h3⟩
  have hn : (hi + 1 - lo).toNat = 0 := by omega
  simp only [parseRange, if_pos hcond, hsplit, hlo, hhi, pyRange, hn,
    List.range_zero, List.map_nil]

/-- Witness for C3 at the decimal reversed interval `10-5`. -/
theorem C3_reversed_interval_empty_witness :
    parseRange "10-5".toList = some [] :=
  C3_reversed_interval_empty "10-5".toList "10".toList "5".toList 10 5
    (by decide) (by decide) (by decide) (by decide) (by decide) (by decide)
    (by decide)

/-- C4: a valid interval spec `LO-HI` with `LO ≤ HI` parses to
`range(LO, HI+1)`, which has exactly `HI - LO + 1` elements in strictly
ascending order. -/
theorem C4_interval_elements (s a b : List Char) (lo hi : ℤ)
    (h1 : '-' ∈ s) (h2 : countChar '-' s = 1) (h3 : ',' ∉ s)
    (hsplit : splitOnChar '-' s = [a, b])
    (hlo : pyInt0 a = some lo) (hhi : pyInt0 b = some hi) (hle : lo ≤ hi) :
    parseRange s = some (pyRange lo (hi + 1)) ∧
      ((pyRange lo (hi + 1)).length : ℤ) = hi - lo + 1 ∧
      (pyRange lo (hi + 1)).Pairwise (· < ·) := by
  have hcond : '-' ∈ s ∧ countChar '-' s = 1 ∧ ',' ∉ s := ⟨h1, h2, h3⟩
  refine ⟨?_, ?_, ?_⟩
  · simp only [parseRange, if_pos hcond, hsplit, hlo, hhi]
  · simp only [pyRange, List.length_map, List.length_range]
    omega
  · simp only [pyRange]
    refine List.Pairwise.map _ (fun i j hij => ?_) (List.pairwise_lt_range _)
    simp only [Int.ofNat_eq_coe]
    omega

/-- Witness for C4 at `0x41-0x43`. -/
theorem C4_interval_elements_witness :
    parseRange "0x41-0x43".toList = some (pyRange 65 (67 + 1)) ∧
      ((pyRange 65 (67 + 1)).length : ℤ) = 67 - 65 + 1 ∧
      (pyRange 65 (67 + 1)).Pairwise (· < ·) :=
  C4_interval_elements "0x41-0x43".toList "0x41".toList "0x43".toList 65 67
    (by decide) (by decide) (by decide) (by decide) (by decide) (by decide)
    (by decide)

/-- C5 counterexample: the emitted record line is not the bare
`<family>.setGlyph(...)` template: it carries a leading TAB character, as
the concrete emission for `u = 0x41` shows. -/
theorem C5_counterexample :
    emit_setglyph_line "Font" 65 [[true], [false], [true]] 1 3 =
      some "\tFont.setGlyph(0x41, \x7b\x7b0x5\x7d, 1, 3, 0, 0\x7d); // Glyph 0x41 - 'A'" ∧
    emit_setglyph_line "Font" 65 [[true], [false], [true]] 1 3 ≠
      some (specRecordShape "Font" 65 ["0x5"] 1 3 'A') := by decide

/-- C5 (amended): every emitted record line is exactly one TAB character
followed by the spec's textual shape (family, codepoint literal, braced
column list, width, height, reserved `0, 0`, annotation), with codepoint
and column literals in `0x` hexadecimal, field order and the reserved
trailing `0, 0` verbatim. -/
theorem C5_emitted_line_tab_then_shape (family : String) (u : ℤ)
    (bits : List (List Bool)) (width height : ℕ) (c : Char)
    (hc : pyChr u = some c) :
    emit_setglyph_line family u bits width height =
      some ("\t" ++ specRecordShape family u
        ((List.range (bits.headD []).length).map (fun x => col_to_hex (colBits bits x)))
        width height c) := by
  unfold emit_setglyph_line
  rw [hc]
  simp only [Option.map_some']
  apply congrArg some
  apply String.ext
  simp [specRecordShape, List.append_assoc]

/-- Witness for C5 at a concrete glyph. -/
theorem C5_emitted_line_tab_then_shape_witness :
    emit_setglyph_line "Font" 65 [[true], [false], [true]] 1 3 =
      some ("\t" ++ specRecordShape "Font" 65
        ((List.range (([[true], [false], [true]] : List (List Bool)).headD []).length).map
          (fun x => col_to_hex (colBits [[true], [false], [true]] x))) 1 3 'A') :=
  C5_emitted_line_tab_then_shape "Font" 65 [[true], [false], [true]] 1 3 'A'
    (by decide)

/-- C6: within one run every PackedGlyph has the same height, and (for any
font whose line metrics are not degenerate, i.e. `ascent + descent ≥ 1`)
that common height equals the font context's `ascent + descent`. -/
theorem C6_uniform_height (ctx : FontContext) (cps : List ℤ)
    (table : List PackedGlyph) (h : glyphTable ctx cps = some table) :
    (∀ g₁ ∈ table, ∀ g₂ ∈ table, g₁.height = g₂.height) ∧
    (1 ≤ ctx.ascent + ctx.descent →
      ∀ g ∈ table, g.height = ctx.ascent + ctx.descent) := by
  have key : ∀ g ∈ table, g.height = max 1 (ctx.ascent + ctx.descent) := by
    intro g hg
    obtain ⟨u, c, hc, rfl⟩ := mem_glyphTable ctx cps table h g hg
    exact packedGlyph_height ctx u c
  constructor
  · intro g₁ h₁ g₂ h₂
    rw [key g₁ h₁, key g₂ h₂]
  · intro had g hg
    rw [key g hg]
    exact Nat.max_eq_right had

/-- Witness for C6 on a concrete two-glyph run. -/
theorem C6_uniform_height_witness :
    (packedGlyph testCtx 65 'A').height = testCtx.ascent + testCtx.descent :=
  (C6_uniform_height testCtx [65, 66]
    [packedGlyph testCtx 65 'A', packedGlyph testCtx 66 'B'] (by rfl)).2
    (by decide) (packedGlyph testCtx 65 'A') (List.mem_cons_self _ _)

/-- C7: every PackedGlyph produced by the pipeline has as many column
integers as its width, and every column integer is below `2 ^ height`. -/
theorem C7_columns_invariant (ctx : FontContext) (cps : List ℤ)
    (table : List PackedGlyph) (h : glyphTable ctx cps = some table) :
    ∀ g ∈ table, g.columns.length = g.width ∧ ∀ n ∈ g.columns, n < 2 ^ g.height := by
  intro g hg
  obtain ⟨u, c, hc, rfl⟩ := mem_glyphTable ctx cps table h g hg
  constructor
  · rw [packedGlyph_columns, packedGlyph_width]
    simp only [columnsOf, List.length_map, List.length_range]
    exact baseline_headD_length ctx c
  · intro n hn
    rw [packedGlyph_columns] at hn
    simp only [columnsOf, List.mem_map, List.mem_range] at hn
    obtain ⟨x, hx, rfl⟩ := hn
    rw [packedGlyph_height]
    have hlen : (colBits (baseline_aligned_cell ctx c).bits x).length =
        max 1 (ctx.ascent + ctx.descent) := by
      rw [colBits_length, baseline_bits_length]
      rfl
    rw [← hlen]
    exact packColNat_lt _

/-- Witness for C7 on a concrete one-glyph run. -/
theorem C7_columns_invariant_witness :
    (packedGlyph testCtx 65 'A').columns.length = (packedGlyph testCtx 65 'A').width ∧
      ∀ n ∈ (packedGlyph testCtx 65 'A').columns,
        n < 2 ^ (packedGlyph testCtx 65 'A').height :=
  C7_columns_invariant testCtx [65] [packedGlyph testCtx 65 'A'] (by rfl)
    (packedGlyph testCtx 65 'A') (List.mem_cons_self _ _)

/-- C8: the RasterCell width is the ceiling of the character's advance
width clamped to a minimum of 1, so `width ≥ 1` always holds. -/
theorem C8_width_is_ceil_advance (ctx : FontContext) (c : Char) :
    (((baseline_aligned_cell ctx c).W : ℤ) = max 1 ⌈ctx.getlength c⌉) ∧
      1 ≤ (baseline_aligned_cell ctx c).W := by
  have h1 : (1 : ℤ) ≤ max 1 ⌈ctx.getlength c⌉ := le_max_left _ _
  have hW : (baseline_aligned_cell ctx c).W = (max 1 ⌈ctx.getlength c⌉).toNat := rfl
  constructor
  · rw [hW, Int.toNat_of_nonneg (by omega)]
  · rw [hW]
    omega

/-- C9 counterexample: `0x110000` is accepted by the range parser, yet the
loop body fails on it (`chr(0x110000)` raises `ValueError`), so its record
does not emit and the run fails. -/
theorem C9_counterexample :
    parseRange "0x110000".toList = some [1114112] ∧
      glyphLine testCtx "Font" 1114112 = none := by decide

/-- C9 (amended): the record emits normally exactly for requested code
points in Python's `chr` domain `[0, 0x110000)`; no degradation logic
exists, so outside that range `chr(u)` raises and the run fails. -/
theorem C9_emission_total_on_unicode (ctx : FontContext) (family : String)
    (u : ℤ) (h0 : 0 ≤ u) (h1 : u < 1114112) :
    (glyphLine ctx family u).isSome = true := by
  simp [glyphLine, pyChr, emit_setglyph_line, h0, h1]

/-- Witness for C9 at `u = 0x41`. -/
theorem C9_emission_total_on_unicode_witness :
    (glyphLine testCtx "Font" 65).isSome = true :=
  C9_emission_total_on_unicode testCtx "Font" 65 (by decide) (by decide)

/-- C10: in list parsing, blank tokens (empty or whitespace-only) are
silently skipped — removing a blank token does not change the parse — so
`0x41,,0x42` yields `[0x41, 0x42]` and `0x41,` yields `[0x41]`. -/
theorem C10_blank_tokens_skipped :
    (∀ (pre post : List (List Char)) (b : List Char), pyIsBlank b = true →
      parseTokens (pre ++ b :: post) = parseTokens (pre ++ post)) ∧
    parseRange "0x41,,0x42".toList = some [65, 66] ∧
    parseRange "0x41,".toList = some [65] := by
  refine ⟨?_, by decide, by decide⟩
  intro pre post b hb
  simp [parseTokens, List.filter_append, List.filter_cons, hb]

/-- Witness for C10: dropping a concrete blank token between two tokens. -/
theorem C10_blank_tokens_skipped_witness :
    parseTokens ([['0', 'x', '4', '1']] ++ [] :: [['0', 'x', '4', '2']]) =
      parseTokens ([['0', 'x', '4', '1']] ++ [['0', 'x', '4', '2']]) :=
  C10_blank_tokens_skipped.1 [['0', 'x', '4', '1']] [['0', 'x', '4', '2']] []
    (by decide)

end GlyphExport
